import Mathlib

/-!
# Verification of the Avalon web frontend against its specification

Shallow embedding of the data model and operations of the Avalon match
viewer (React frontend) together with a spec-derived model of the match
rules engine, and theorems settling the frozen claims about them.
-/

set_option maxHeartbeats 1000000

/-- Team of a player: good or evil. -/
inductive Team where
  | good
  | evil
deriving DecidableEq, Repr

/-- Closed role set of the base game. -/
inductive Role where
  | merlin
  | loyal_servant
  | assassin
  | minion
deriving DecidableEq, Repr

/-- Phases of the match state machine, as in the frontend GamePhase type. -/
inductive GamePhase where
  | role_assignment
  | night_phase
  | team_selection
  | discussion
  | team_vote
  | quest_execution
  | assassination_discussion
  | assassination
  | game_over
deriving DecidableEq, Repr

/-- Match status as carried by GameState.status. -/
inductive GameStatus where
  | waiting
  | in_progress
  | finished
deriving DecidableEq, Repr

/-- A player record as delivered to the frontend. Role and team are
optional: the backend omits them for seats the observer may not see. -/
structure Player where
  seat : Nat
  name : String
  is_human : Bool
  role : Option Role
  team : Option Team
  model_name : Option String
deriving DecidableEq, Repr

/-- A discussion entry. The round is optional (older entries may lack it)
and the attempt disambiguates entries of different vote attempts. -/
structure DiscussionMessage where
  seat : Nat
  player_name : String
  content : String
  round : Option Nat
  attempt : Option Nat
  timestamp : Option String
deriving DecidableEq, Repr

/-- A resolved team-vote record. -/
structure VoteResult where
  round : Nat
  attempt : Nat
  votes : List (Nat × Bool)
  approved : Bool
deriving DecidableEq, Repr

/-- A quest round result; success is null until resolved. -/
structure QuestResult where
  round : Nat
  success : Option Bool
  fail_votes : Nat
  quest_votes : List (Nat × Bool)
  team_members : List Nat
deriving DecidableEq, Repr

/-- The full game state snapshot the frontend receives. -/
structure GameState where
  id : String
  status : GameStatus
  phase : GamePhase
  player_count : Nat
  players : List Player
  current_round : Nat
  current_leader : Nat
  vote_attempt : Nat
  proposed_team : List Nat
  quest_results : List QuestResult
  vote_history : List VoteResult
  discussion_history : List DiscussionMessage
  assassination_discussion_history : List DiscussionMessage
  assassinated_player : Option Nat
  winner : Option Team
  waiting_for_human : Bool
deriving DecidableEq, Repr

namespace GameStore

/-- useGameStore.togglePlayerSelection: if the seat is already selected,
remove every occurrence of it, otherwise append it at the end. -/
def togglePlayerSelection (selectedPlayers : List Nat) (seat : Nat) : List Nat :=
  if selectedPlayers.contains seat then
    selectedPlayers.filter (fun s => s != seat)
  else
    selectedPlayers ++ [seat]

/-- useGameStore.setGameState merge of one player record: find the stored
record with the same seat; if it carries a role while the incoming record
does not, keep the stored role and team, otherwise keep the incoming
record unchanged. -/
def mergePlayer (existingPlayers : List Player) (player : Player) : Player :=
  match existingPlayers.find? (fun p => p.seat == player.seat) with
  | some existingPlayer =>
    if existingPlayer.role.isSome && player.role.isNone then
      { player with role := existingPlayer.role, team := existingPlayer.team }
    else
      player
  | none => player

/-- useGameStore.setGameState: in god mode, when a stored state exists,
replace the stored state by the incoming one except that each player
record is merged with `mergePlayer`; otherwise replace it entirely. -/
def setGameState (godMode : Bool) (current : Option GameState) (state : GameState) :
    GameState :=
  match current with
  | some currentGameState =>
    if godMode then
      { state with players := state.players.map (mergePlayer currentGameState.players) }
    else
      state
  | none => state

end GameStore

namespace GameBoard

/-- GameBoard.showRoles: roles are shown when the game is finished, or a
human seat is set for this observer, or god mode is enabled. -/
def showRoles (status : GameStatus) (humanSeat : Option Nat) (godMode : Bool) : Bool :=
  status == GameStatus.finished || humanSeat.isSome || godMode

end GameBoard

namespace PlayerCard

/-- PlayerCard role badge: rendered only when showRole is set and the
player record actually carries a role. -/
def roleBadgeShown (showRole : Bool) (player : Player) : Bool :=
  showRole && player.role.isSome

/-- PlayerCard team badge: rendered only when showRole is set and the
record carries a team but no role. -/
def teamBadgeShown (showRole : Bool) (player : Player) : Bool :=
  showRole && player.team.isSome && !player.role.isSome

end PlayerCard

namespace HumanControls

/-- HumanControls: the currently acting human player record, looked up by
seat index in the player array. -/
def humanPlayer (players : List Player) (humanSeat : Option Nat) : Option Player :=
  match humanSeat with
  | some s => players.get? s
  | none => none

/-- HumanControls.isEvil: whether the human player record carries the
evil team. -/
def isEvil (players : List Player) (humanSeat : Option Nat) : Bool :=
  match humanPlayer players humanSeat with
  | some player => player.team == some Team.evil
  | none => false

/-- HumanControls quest controls: the quest-vote values for which a submit
control is rendered. An evil player gets both a success and a fail button;
a good-aligned player gets only the success button. -/
def questVoteChoices (evil : Bool) : List Bool :=
  if evil then [true, false] else [true]

/-- HumanControls.QUEST_SIZES: team-size table, only defined for 5 and 6
players. -/
def QUEST_SIZES (playerCount : Nat) : Option (List Nat) :=
  if playerCount = 5 then some [2, 3, 2, 3, 3]
  else if playerCount = 6 then some [2, 3, 4, 3, 4]
  else none

/-- HumanControls.requiredSize: table entry for the current round, with
the JavaScript fallback to 2 when the lookup yields nothing falsy. -/
def requiredSize (playerCount currentRound : Nat) : Nat :=
  match (QUEST_SIZES playerCount).bind (fun sizes => sizes.get? (currentRound - 1)) with
  | some n => if n = 0 then 2 else n
  | none => 2

/-- HumanControls team submit button: enabled exactly when the number of
selected players equals requiredSize. -/
def teamSubmitEnabled (selectedCount playerCount currentRound : Nat) : Bool :=
  selectedCount == requiredSize playerCount currentRound

end HumanControls

namespace QuestTracker

/-- QuestTracker.QUEST_SIZES: full team-size table by player count. -/
def QUEST_SIZES (playerCount : Nat) : Option (List Nat) :=
  if playerCount = 5 then some [2, 3, 2, 3, 3]
  else if playerCount = 6 then some [2, 3, 4, 3, 4]
  else if playerCount = 7 then some [2, 3, 3, 4, 4]
  else if playerCount = 8 then some [3, 4, 4, 5, 5]
  else if playerCount = 9 then some [3, 4, 4, 5, 5]
  else if playerCount = 10 then some [3, 4, 4, 5, 5]
  else none

/-- QuestTracker.questSizes: table lookup with fallback to the 5-player
table for unknown player counts. -/
def questSizes (playerCount : Nat) : List Nat :=
  (QUEST_SIZES playerCount).getD [2, 3, 2, 3, 3]

/-- The rule-table team size for a player count and round, without any
fallback: this is the authoritative table entry this repository carries. -/
def ruleTableSize (playerCount round : Nat) : Option Nat :=
  (QUEST_SIZES playerCount).bind (fun sizes => sizes.get? (round - 1))

/-- QuestTracker.goodWins: number of quest results resolved successful,
counted over the whole list. -/
def goodWins (questResults : List QuestResult) : Nat :=
  (questResults.filter (fun q => q.success == some true)).length

/-- QuestTracker.showAssassination: the assassination stage is shown when
at least 3 quests succeeded or the phase already is an assassination or
terminal phase. -/
def showAssassination (phase : GamePhase) (questResults : List QuestResult) : Bool :=
  decide (3 ≤ goodWins questResults)
    || phase == GamePhase.assassination_discussion
    || phase == GamePhase.assassination
    || phase == GamePhase.game_over

end QuestTracker

/-- Claim C1: a role or team badge is rendered only for an observer whose
showRoles flag is set; a non-privileged observer (match not finished, no
human seat, no god mode) sees no role or team badge for any seat; a record
carrying neither role nor team renders no badge for any observer; and once
the match is finished showRoles is identically true for all observers, so
what is displayed depends only on the player record. -/
theorem claimC1 : ∀ (status : GameStatus) (humanSeat : Option Nat) (godMode : Bool)
    (p : Player),
    (PlayerCard.roleBadgeShown (GameBoard.showRoles status humanSeat godMode) p = true →
      GameBoard.showRoles status humanSeat godMode = true ∧ p.role.isSome = true)
    ∧ (status ≠ GameStatus.finished → humanSeat = none → godMode = false →
      PlayerCard.roleBadgeShown (GameBoard.showRoles status humanSeat godMode) p = false
      ∧ PlayerCard.teamBadgeShown (GameBoard.showRoles status humanSeat godMode) p = false)
    ∧ (p.role = none → p.team = none →
      PlayerCard.roleBadgeShown (GameBoard.showRoles status humanSeat godMode) p = false
      ∧ PlayerCard.teamBadgeShown (GameBoard.showRoles status humanSeat godMode) p = false)
    ∧ (∀ (humanSeat2 : Option Nat) (godMode2 : Bool),
      GameBoard.showRoles GameStatus.finished humanSeat godMode
        = GameBoard.showRoles GameStatus.finished humanSeat2 godMode2)
    ∧ (status = GameStatus.finished →
      PlayerCard.roleBadgeShown (GameBoard.showRoles status humanSeat godMode) p
        = p.role.isSome) := by
  intro status humanSeat godMode p
  refine ⟨?_, ?_, ?_, ?_, ?_⟩
  · intro h
    simp only [PlayerCard.roleBadgeShown, Bool.and_eq_true] at h
    exact ⟨h.1, h.2⟩
  · intro hs hh hg
    subst hh; subst hg
    have hsr : GameBoard.showRoles status none false = false := by
      cases status <;> simp_all [GameBoard.showRoles]
    simp [PlayerCard.roleBadgeShown, PlayerCard.teamBadgeShown, hsr]
  · intro hr ht
    simp [PlayerCard.roleBadgeShown, PlayerCard.teamBadgeShown, hr, ht]
  · intro humanSeat2 godMode2
    simp [GameBoard.showRoles]
  · intro hs
    subst hs
    simp [PlayerCard.roleBadgeShown, GameBoard.showRoles]

/-- Witness for claim C1: a non-privileged observer of an in-progress
match sees no badge for a seat whose record carries a role. -/
theorem claimC1_witness :
    PlayerCard.roleBadgeShown
      (GameBoard.showRoles GameStatus.in_progress none false)
      { seat := 0, name := "p0", is_human := false, role := some Role.merlin,
        team := some Team.good, model_name := none } = false
    ∧ PlayerCard.teamBadgeShown
      (GameBoard.showRoles GameStatus.in_progress none false)
      { seat := 0, name := "p0", is_human := false, role := some Role.merlin,
        team := some Team.good, model_name := none } = false := by
  have h := claimC1 GameStatus.in_progress none false
    { seat := 0, name := "p0", is_human := false, role := some Role.merlin,
      team := some Team.good, model_name := none }
  exact (h.2.1 (by decide) rfl rfl)

/-- Claim C2: a good-aligned human at a quest decision point can only
submit success: every rendered quest-vote control of a player whose team
is not evil submits true, and a fail control is rendered only when the
player record carries the evil team. -/
theorem claimC2 : ∀ (players : List Player) (humanSeat : Option Nat) (p : Player),
    (HumanControls.isEvil players humanSeat = false →
      ∀ v ∈ HumanControls.questVoteChoices (HumanControls.isEvil players humanSeat),
        v = true)
    ∧ (false ∈ HumanControls.questVoteChoices (HumanControls.isEvil players humanSeat) →
      HumanControls.isEvil players humanSeat = true)
    ∧ (HumanControls.humanPlayer players humanSeat = some p →
      p.team ≠ some Team.evil →
      HumanControls.isEvil players humanSeat = false) := by
  intro players humanSeat p
  refine ⟨?_, ?_, ?_⟩
  · intro h v hv
    rw [h] at hv
    simpa [HumanControls.questVoteChoices] using hv
  · intro h
    by_contra hne
    have hf : HumanControls.isEvil players humanSeat = false := by
      cases hiv : HumanControls.isEvil players humanSeat
      · rfl
      · exact absurd hiv hne
    rw [hf] at h
    simp [HumanControls.questVoteChoices] at h
  · intro hp ht
    simp only [HumanControls.isEvil, hp]
    simpa using ht

/-- Witness for claim C2: a loyal servant human sees only the success
control. -/
theorem claimC2_witness :
    HumanControls.isEvil
      [{ seat := 0, name := "p0", is_human := true, role := some Role.loyal_servant,
         team := some Team.good, model_name := none }] (some 0) = false
    ∧ ∀ v ∈ HumanControls.questVoteChoices
        (HumanControls.isEvil
          [{ seat := 0, name := "p0", is_human := true, role := some Role.loyal_servant,
             team := some Team.good, model_name := none }] (some 0)), v = true := by
  have h := claimC2
    [{ seat := 0, name := "p0", is_human := true, role := some Role.loyal_servant,
       team := some Team.good, model_name := none }] (some 0)
    { seat := 0, name := "p0", is_human := true, role := some Role.loyal_servant,
      team := some Team.good, model_name := none }
  have hf := h.2.2 (by rfl) (by decide)
  exact ⟨hf, h.1 hf⟩

namespace Home

/-- Home page player-count controls: the decrement and increment buttons. -/
inductive CountOp where
  | dec
  | inc
deriving DecidableEq, Repr

/-- One click of a Home player-count button: decrement clamps at 5,
increment clamps at 6. -/
def applyCountOp (c : Nat) : CountOp → Nat
  | CountOp.dec => max 5 (c - 1)
  | CountOp.inc => min 6 (c + 1)

/-- The player count after a sequence of button clicks, starting from the
initial value 5. -/
def playerCountAfter (ops : List CountOp) : Nat :=
  ops.foldl applyCountOp 5

end Home

/-- The Home player count stays in the interval given by the clamps. -/
theorem Home.playerCount_bounds (ops : List Home.CountOp) (c : Nat)
    (h5 : 5 ≤ c) (h6 : c ≤ 6) :
    5 ≤ ops.foldl Home.applyCountOp c ∧ ops.foldl Home.applyCountOp c ≤ 6 := by
  induction ops generalizing c with
  | nil => exact ⟨h5, h6⟩
  | cons op ops ih =>
    cases op
    · exact ih (max 5 (c - 1)) (le_max_left 5 (c - 1)) (by omega)
    · exact ih (min 6 (c + 1)) (by omega) (min_le_left 6 (c + 1))

/-- Claim C3 counterexample: with 7 players in round 2 the rule table
requires a team of 3, yet the HumanControls submit button is enabled with
only 2 seats selected (its size table lacks the 7-player row and falls
back to 2), so a team smaller than the required size can be submitted. -/
theorem claimC3_counterexample :
    HumanControls.teamSubmitEnabled 2 7 2 = true
    ∧ QuestTracker.ruleTableSize 7 2 = some 3
    ∧ HumanControls.requiredSize 7 2 ≠ 3 := by
  decide

/-- The submit button condition agrees with the rule table whenever the
requiredSize fallback value coincides with the table entry. -/
theorem HumanControls.submit_iff_table (pc r k s : Nat)
    (hreq : HumanControls.requiredSize pc r = k)
    (hrt : QuestTracker.ruleTableSize pc r = some k) :
    (HumanControls.teamSubmitEnabled s pc r = true ↔
      QuestTracker.ruleTableSize pc r = some s) := by
  rw [hrt]
  simp only [HumanControls.teamSubmitEnabled, hreq, beq_iff_eq, Option.some.injEq]
  exact eq_comm

/-- Claim C3 amended: for player counts 5 and 6 and rounds 1 to 5 the
submit button is enabled exactly when the number of selected seats equals
the rule-table team size for that player count and round; for player
counts 7 to 10 it is instead enabled exactly when 2 seats are selected,
regardless of the rule table. -/
theorem claimC3 : ∀ (playerCount currentRound selectedCount : Nat),
    (5 ≤ playerCount → playerCount ≤ 6 → 1 ≤ currentRound → currentRound ≤ 5 →
      (HumanControls.teamSubmitEnabled selectedCount playerCount currentRound = true ↔
        QuestTracker.ruleTableSize playerCount currentRound = some selectedCount))
    ∧ (7 ≤ playerCount → playerCount ≤ 10 →
      (HumanControls.teamSubmitEnabled selectedCount playerCount currentRound = true ↔
        selectedCount = 2)) := by
  intro playerCount currentRound selectedCount
  constructor
  · intro h5 h6 h1 h5r
    interval_cases playerCount <;> interval_cases currentRound <;>
      exact HumanControls.submit_iff_table _ _ _ selectedCount rfl (by decide)
  · intro h7 h10
    have hq : HumanControls.QUEST_SIZES playerCount = none := by
      interval_cases playerCount <;> simp [HumanControls.QUEST_SIZES]
    simp [HumanControls.teamSubmitEnabled, HumanControls.requiredSize, hq]

/-- Witness for claim C3 at 5 players, round 1, 2 selected seats. -/
theorem claimC3_witness :
    HumanControls.teamSubmitEnabled 2 5 1 = true
    ∧ QuestTracker.ruleTableSize 5 1 = some 2 := by
  have h := (claimC3 5 1 2).1 (by decide) (by decide) (by decide) (by decide)
  exact ⟨by decide, h.mp (by decide)⟩

/-- Claim C4 counterexample: the rule-table lookup does not fail for the
out-of-range player count 11; QuestTracker silently falls back to the
5-player size table and HumanControls to a required size of 2. -/
theorem claimC4_counterexample :
    QuestTracker.QUEST_SIZES 11 = none
    ∧ QuestTracker.questSizes 11 = [2, 3, 2, 3, 3]
    ∧ QuestTracker.questSizes 11 = QuestTracker.questSizes 5
    ∧ HumanControls.requiredSize 11 1 = 2 := by
  decide

/-- Claim C4 amended: the lookup is a pure function of the player count;
for counts with no table row it falls back to the 5-player table instead
of failing; and the Home page clamps the configurable player count to the
interval from 5 to 6, so the creation form never requests an out-of-range
count. -/
theorem claimC4 : ∀ (ops : List Home.CountOp) (playerCount : Nat),
    (5 ≤ Home.playerCountAfter ops ∧ Home.playerCountAfter ops ≤ 6)
    ∧ (QuestTracker.QUEST_SIZES playerCount = none →
      QuestTracker.questSizes playerCount = [2, 3, 2, 3, 3]) := by
  intro ops playerCount
  refine ⟨Home.playerCount_bounds ops 5 (by decide) (by decide), ?_⟩
  intro h
  simp [QuestTracker.questSizes, h]

/-- Witness for claim C4: after clicking increment twice the count is
still at most 6, and the lookup at count 11 falls back. -/
theorem claimC4_witness :
    (5 ≤ Home.playerCountAfter [Home.CountOp.inc, Home.CountOp.inc]
      ∧ Home.playerCountAfter [Home.CountOp.inc, Home.CountOp.inc] ≤ 6)
    ∧ QuestTracker.questSizes 11 = [2, 3, 2, 3, 3] := by
  have h := claimC4 [Home.CountOp.inc, Home.CountOp.inc] 11
  exact ⟨h.1, h.2 (by decide)⟩

/-- Claim C5: the assassination stage is shown exactly when at least 3
quest results are successful or the phase already is
assassination_discussion, assassination or game_over; the success count
ranges over the whole result list, so the outcome is invariant under any
permutation of the results. -/
theorem claimC5 : ∀ (phase : GamePhase) (questResults : List QuestResult),
    (QuestTracker.showAssassination phase questResults = true ↔
      (3 ≤ QuestTracker.goodWins questResults
        ∨ phase = GamePhase.assassination_discussion
        ∨ phase = GamePhase.assassination
        ∨ phase = GamePhase.game_over))
    ∧ (∀ questResults2 : List QuestResult, questResults.Perm questResults2 →
      QuestTracker.showAssassination phase questResults
        = QuestTracker.showAssassination phase questResults2) := by
  intro phase questResults
  constructor
  · simp [QuestTracker.showAssassination, Bool.or_eq_true, or_assoc]
  · intro questResults2 hperm
    have hlen : QuestTracker.goodWins questResults =
        QuestTracker.goodWins questResults2 := by
      have h := List.Perm.length_eq
        (List.Perm.filter (fun q => q.success == some true) hperm)
      simpa [QuestTracker.goodWins] using h
    simp [QuestTracker.showAssassination, hlen]

/-- Witness for claim C5: three successes in any order show the stage. -/
theorem claimC5_witness :
    QuestTracker.showAssassination GamePhase.team_selection
      [{ round := 1, success := some true, fail_votes := 0, quest_votes := [],
         team_members := [] },
       { round := 2, success := some false, fail_votes := 1, quest_votes := [],
         team_members := [] },
       { round := 3, success := some true, fail_votes := 0, quest_votes := [],
         team_members := [] },
       { round := 4, success := some true, fail_votes := 0, quest_votes := [],
         team_members := [] }] = true := by
  exact (claimC5 GamePhase.team_selection _).1.mpr (Or.inl (by decide))

namespace Discussion

/-- JavaScript `msg.round || 1`: the round of a message, defaulting to 1
when the field is missing or zero (both falsy). -/
def roundOrOne (round : Option Nat) : Nat :=
  match round with
  | some n => if n = 0 then 1 else n
  | none => 1

/-- Discussion.filteredMessages: the messages of the display round. -/
def filteredMessages (messages : List DiscussionMessage) (displayRound : Nat) :
    List DiscussionMessage :=
  messages.filter (fun msg => roundOrOne msg.round == displayRound)

/-- Discussion.filteredVotes: the vote records of the display round. -/
def filteredVotes (votes : List VoteResult) (displayRound : Nat) : List VoteResult :=
  votes.filter (fun vote => vote.round == displayRound)

/-- Discussion.questResult: the quest result of the display round. -/
def questResultFor (questResults : List QuestResult) (displayRound : Nat) :
    Option QuestResult :=
  questResults.find? (fun q => q.round == displayRound)

end Discussion

/-- Claim C6: the round filtering of messages, votes and quest results is
a pure function of its inputs: recomputing on the same inputs yields the
same output, the filtered lists are sublists of the untouched inputs, and
each output is exactly characterized by membership in the input together
with the round condition. -/
theorem claimC6 : ∀ (messages : List DiscussionMessage) (votes : List VoteResult)
    (questResults : List QuestResult) (displayRound : Nat),
    (Discussion.filteredMessages messages displayRound
        = Discussion.filteredMessages messages displayRound
      ∧ Discussion.filteredVotes votes displayRound
        = Discussion.filteredVotes votes displayRound
      ∧ Discussion.questResultFor questResults displayRound
        = Discussion.questResultFor questResults displayRound)
    ∧ (Discussion.filteredMessages messages displayRound).Sublist messages
    ∧ (Discussion.filteredVotes votes displayRound).Sublist votes
    ∧ (∀ m, m ∈ Discussion.filteredMessages messages displayRound ↔
        m ∈ messages ∧ Discussion.roundOrOne m.round = displayRound)
    ∧ (∀ v, v ∈ Discussion.filteredVotes votes displayRound ↔
        v ∈ votes ∧ v.round = displayRound)
    ∧ (∀ q, Discussion.questResultFor questResults displayRound = some q →
        q ∈ questResults ∧ q.round = displayRound) := by
  intro messages votes questResults displayRound
  refine ⟨⟨rfl, rfl, rfl⟩, List.filter_sublist _, List.filter_sublist _, ?_, ?_, ?_⟩
  · intro m
    simp [Discussion.filteredMessages, List.mem_filter]
  · intro v
    simp [Discussion.filteredVotes, List.mem_filter]
  · intro q hq
    refine ⟨List.mem_of_find?_eq_some hq, ?_⟩
    have h := List.find?_some hq
    simpa using h

/-- A sample resolved quest result used to instantiate theorems. -/
def sampleQuestResult : QuestResult :=
  { round := 1, success := some true, fail_votes := 0, quest_votes := [],
    team_members := [] }

/-- Witness for claim C6 on a concrete quest-result list. -/
theorem claimC6_witness :
    Discussion.questResultFor [sampleQuestResult] 1 = some sampleQuestResult
    ∧ sampleQuestResult ∈ [sampleQuestResult] := by
  refine ⟨by decide, ?_⟩
  exact ((claimC6 [] [] [sampleQuestResult] 1).2.2.2.2.2 sampleQuestResult
    (by decide)).1

/-- A sample incoming player record without role information. -/
def samplePlayerIn : Player :=
  { seat := 0, name := "p0", is_human := false, role := none, team := none,
    model_name := none }

/-- A sample stored player record carrying full role information. -/
def samplePlayerStored : Player :=
  { seat := 0, name := "p0", is_human := false, role := some Role.merlin,
    team := some Team.good, model_name := none }

/-- A sample game state used to instantiate store theorems. -/
def sampleGameState : GameState :=
  { id := "g", status := GameStatus.in_progress, phase := GamePhase.team_selection,
    player_count := 5, players := [samplePlayerIn], current_round := 1,
    current_leader := 0, vote_attempt := 1, proposed_team := [], quest_results := [],
    vote_history := [], discussion_history := [],
    assassination_discussion_history := [], assassinated_player := none,
    winner := none, waiting_for_human := false }

/-- Claim C8: setGameState replaces the stored state by the incoming one
when god mode is off or no state is stored; in god mode with a stored
state it only rewrites the player list through mergePlayer and leaves all
non-player fields of the incoming state unchanged; mergePlayer keeps
every field except role and team, restores the stored role and team
exactly when the stored record has a role and the incoming one does not,
and is the identity when the incoming record has a role or no stored
record matches the seat. -/
theorem claimC8 : ∀ (godMode : Bool) (cur state : GameState) (eps : List Player)
    (p e : Player),
    (GameStore.setGameState false (some cur) state = state)
    ∧ (GameStore.setGameState godMode none state = state)
    ∧ ((GameStore.setGameState true (some cur) state).players
        = state.players.map (GameStore.mergePlayer cur.players))
    ∧ ((GameStore.setGameState true (some cur) state).id = state.id
      ∧ (GameStore.setGameState true (some cur) state).status = state.status
      ∧ (GameStore.setGameState true (some cur) state).phase = state.phase
      ∧ (GameStore.setGameState true (some cur) state).player_count = state.player_count
      ∧ (GameStore.setGameState true (some cur) state).current_round = state.current_round
      ∧ (GameStore.setGameState true (some cur) state).current_leader
          = state.current_leader
      ∧ (GameStore.setGameState true (some cur) state).vote_attempt = state.vote_attempt
      ∧ (GameStore.setGameState true (some cur) state).proposed_team
          = state.proposed_team
      ∧ (GameStore.setGameState true (some cur) state).quest_results
          = state.quest_results
      ∧ (GameStore.setGameState true (some cur) state).vote_history = state.vote_history
      ∧ (GameStore.setGameState true (some cur) state).discussion_history
          = state.discussion_history
      ∧ (GameStore.setGameState true (some cur) state).assassination_discussion_history
          = state.assassination_discussion_history
      ∧ (GameStore.setGameState true (some cur) state).assassinated_player
          = state.assassinated_player
      ∧ (GameStore.setGameState true (some cur) state).winner = state.winner
      ∧ (GameStore.setGameState true (some cur) state).waiting_for_human
          = state.waiting_for_human)
    ∧ ((GameStore.mergePlayer eps p).seat = p.seat
      ∧ (GameStore.mergePlayer eps p).name = p.name
      ∧ (GameStore.mergePlayer eps p).is_human = p.is_human
      ∧ (GameStore.mergePlayer eps p).model_name = p.model_name)
    ∧ (eps.find? (fun q => q.seat == p.seat) = some e → e.role.isSome = true →
        p.role = none →
        (GameStore.mergePlayer eps p).role = e.role
        ∧ (GameStore.mergePlayer eps p).team = e.team)
    ∧ (p.role.isSome = true → GameStore.mergePlayer eps p = p)
    ∧ (eps.find? (fun q => q.seat == p.seat) = none →
        GameStore.mergePlayer eps p = p) := by
  intro godMode cur state eps p e
  refine ⟨rfl, rfl, rfl,
    ⟨rfl, rfl, rfl, rfl, rfl, rfl, rfl, rfl, rfl, rfl, rfl, rfl, rfl, rfl, rfl⟩,
    ?_, ?_, ?_, ?_⟩
  · unfold GameStore.mergePlayer
    cases eps.find? (fun q => q.seat == p.seat) with
    | none => exact ⟨rfl, rfl, rfl, rfl⟩
    | some ep =>
      dsimp only
      split
      · exact ⟨rfl, rfl, rfl, rfl⟩
      · exact ⟨rfl, rfl, rfl, rfl⟩
  · intro hf hrole hnone
    unfold GameStore.mergePlayer
    rw [hf]
    have hcond : (e.role.isSome && p.role.isNone) = true := by
      simp [hrole, hnone]
    simp [hcond]
  · intro hrole
    unfold GameStore.mergePlayer
    cases eps.find? (fun q => q.seat == p.seat) with
    | none => rfl
    | some ep =>
      have hcond : (ep.role.isSome && p.role.isNone) = false := by
        cases hp : p.role with
        | none => simp [hp] at hrole
        | some r => simp [hp]
      simp only [hcond]
      rfl
  · intro hf
    unfold GameStore.mergePlayer
    rw [hf]

/-- Witness for claim C8: a merge on concrete records restores the stored
merlin role and good team. -/
theorem claimC8_witness :
    (GameStore.mergePlayer [samplePlayerStored] samplePlayerIn).role
      = some Role.merlin
    ∧ (GameStore.mergePlayer [samplePlayerStored] samplePlayerIn).team
      = some Team.good := by
  have h := (claimC8 true sampleGameState sampleGameState [samplePlayerStored]
    samplePlayerIn samplePlayerStored).2.2.2.2.2.1 (by decide) (by decide) rfl
  exact ⟨h.1, h.2⟩

namespace Engine

/-- Modelled from the spec: the canonical match state of the rules engine
(section 4.3 of the specification). The engine itself is backend code not
present in this repository checkout; the frontend only displays its
vote_attempt/5 counter. -/
structure EngineState where
  playerCount : Nat
  phase : GamePhase
  round : Nat
  voteAttempt : Nat
  leader : Nat
  questResults : List Bool
  winner : Option Team
deriving DecidableEq, Repr

/-- Modelled from the spec: the initial engine state of a fresh match. -/
def initialState (playerCount : Nat) : EngineState :=
  { playerCount := playerCount, phase := GamePhase.role_assignment, round := 1,
    voteAttempt := 1, leader := 0, questResults := [], winner := none }

/-- Modelled from the spec: team-vote resolution. On approve the match
enters quest_execution; on reject the attempt is incremented and, when the
incremented count would exceed 5, evil wins immediately, otherwise the
leader rotates and team_selection restarts for the same round. -/
def resolveTeamVote (s : EngineState) (approved : Bool) : EngineState :=
  if approved then
    { s with phase := GamePhase.quest_execution }
  else if 5 ≤ s.voteAttempt then
    { s with phase := GamePhase.game_over, winner := some Team.evil }
  else
    { s with
      phase := GamePhase.team_selection, voteAttempt := s.voteAttempt + 1,
      leader := (s.leader + 1) % s.playerCount }

/-- Modelled from the spec: quest resolution. The result is appended; on
the third failed quest evil wins; on the third successful quest the match
enters assassination_discussion; otherwise the round advances, the attempt
resets to 1 and the leader rotates. -/
def resolveQuest (s : EngineState) (success : Bool) : EngineState :=
  if 3 ≤ ((s.questResults ++ [success]).filter (fun b => b == false)).length then
    { s with
      questResults := s.questResults ++ [success],
      phase := GamePhase.game_over, winner := some Team.evil }
  else if 3 ≤ ((s.questResults ++ [success]).filter (fun b => b == true)).length then
    { s with
      questResults := s.questResults ++ [success],
      phase := GamePhase.assassination_discussion }
  else
    { s with
      questResults := s.questResults ++ [success],
      phase := GamePhase.team_selection, round := s.round + 1, voteAttempt := 1,
      leader := (s.leader + 1) % s.playerCount }

/-- Modelled from the spec: assassination resolution. Evil wins when the
target holds merlin, otherwise good wins; either way the match ends. -/
def resolveAssassination (s : EngineState) (targetIsMerlin : Bool) : EngineState :=
  { s with
    phase := GamePhase.game_over,
    winner := some (if targetIsMerlin then Team.evil else Team.good) }

/-- Modelled from the spec: the transitions of the phase state machine.
Decision contents (vote outcomes, quest outcomes, the assassination
target) are free parameters of the transitions. -/
inductive Step : EngineState → EngineState → Prop where
  | assignRoles (s : EngineState) : s.phase = GamePhase.role_assignment →
      Step s { s with phase := GamePhase.night_phase }
  | nightDone (s : EngineState) : s.phase = GamePhase.night_phase →
      Step s { s with phase := GamePhase.team_selection }
  | proposeTeam (s : EngineState) : s.phase = GamePhase.team_selection →
      Step s { s with phase := GamePhase.discussion }
  | discussionDone (s : EngineState) : s.phase = GamePhase.discussion →
      Step s { s with phase := GamePhase.team_vote }
  | teamVote (s : EngineState) (approved : Bool) : s.phase = GamePhase.team_vote →
      Step s (resolveTeamVote s approved)
  | quest (s : EngineState) (success : Bool) : s.phase = GamePhase.quest_execution →
      Step s (resolveQuest s success)
  | assassinationTalkDone (s : EngineState) :
      s.phase = GamePhase.assassination_discussion →
      Step s { s with phase := GamePhase.assassination }
  | assassinate (s : EngineState) (targetIsMerlin : Bool) :
      s.phase = GamePhase.assassination →
      Step s (resolveAssassination s targetIsMerlin)

/-- Modelled from the spec: states reachable from the initial state. -/
inductive Reachable (playerCount : Nat) : EngineState → Prop where
  | init : Reachable playerCount (initialState playerCount)
  | step {s s' : EngineState} : Reachable playerCount s → Step s s' →
      Reachable playerCount s'

/-- The vote attempt of every reachable engine state lies in the interval
from 1 to 5. -/
theorem reachable_voteAttempt_bounds (playerCount : Nat) (s : EngineState)
    (h : Reachable playerCount s) : 1 ≤ s.voteAttempt ∧ s.voteAttempt ≤ 5 := by
  induction h with
  | init => simp [initialState]
  | step hr hstep ih =>
    cases hstep with
    | assignRoles ht => exact ih
    | nightDone ht => exact ih
    | proposeTeam ht => exact ih
    | discussionDone ht => exact ih
    | teamVote approved ht =>
      unfold resolveTeamVote
      split
      · exact ih
      · split
        · exact ih
        · rename_i hnapp hlt
          dsimp only
          omega
    | quest success ht =>
      unfold resolveQuest
      split
      · exact ih
      · split
        · exact ih
        · dsimp only
          omega
    | assassinationTalkDone ht => exact ih
    | assassinate targetIsMerlin ht => exact ih

/-- No transition leaves a terminal state. -/
theorem no_step_of_game_over (s s' : EngineState)
    (h : s.phase = GamePhase.game_over) : ¬ Step s s' := by
  intro hstep
  cases hstep <;> simp_all

end Engine

/-- Claim C7: in every reachable engine state the vote attempt lies in the
interval from 1 to 5; a rejected team vote below the limit increments the
attempt and returns to team_selection; a rejected vote at attempt 5 makes
the match terminal with winner evil; and a terminal state has no outgoing
transition, so team_selection is never re-entered. -/
theorem claimC7 : ∀ (playerCount : Nat) (s : Engine.EngineState),
    Engine.Reachable playerCount s →
    (1 ≤ s.voteAttempt ∧ s.voteAttempt ≤ 5)
    ∧ (s.phase = GamePhase.team_vote → s.voteAttempt < 5 →
      (Engine.resolveTeamVote s false).voteAttempt = s.voteAttempt + 1
      ∧ (Engine.resolveTeamVote s false).phase = GamePhase.team_selection)
    ∧ (s.phase = GamePhase.team_vote → s.voteAttempt = 5 →
      (Engine.resolveTeamVote s false).phase = GamePhase.game_over
      ∧ (Engine.resolveTeamVote s false).winner = some Team.evil)
    ∧ (s.phase = GamePhase.game_over → ∀ s', ¬ Engine.Step s s') := by
  intro playerCount s hreach
  refine ⟨Engine.reachable_voteAttempt_bounds playerCount s hreach, ?_, ?_, ?_⟩
  · intro hphase hlt
    have hnot : ¬ 5 ≤ s.voteAttempt := by omega
    simp [Engine.resolveTeamVote, hnot]
  · intro hphase heq
    have hge : 5 ≤ s.voteAttempt := by omega
    simp [Engine.resolveTeamVote, hge]
  · intro hphase s'
    exact Engine.no_step_of_game_over s s' hphase

/-- Witness for claim C7 at the initial state of a 5-player match. -/
theorem claimC7_witness :
    1 ≤ (Engine.initialState 5).voteAttempt
    ∧ (Engine.initialState 5).voteAttempt ≤ 5 :=
  (claimC7 5 (Engine.initialState 5) Engine.Reachable.init).1

namespace Replay

/-- The replay page navigation state: the current index into the list of
replay states and the auto-play flag. -/
structure ReplayNav where
  currentIndex : Int
  playing : Bool
deriving DecidableEq, Repr

/-- Replay.handlePrev: step back, clamped at 0, and stop auto-play. -/
def handlePrev (nav : ReplayNav) : ReplayNav :=
  { currentIndex := max 0 (nav.currentIndex - 1), playing := false }

/-- Replay.handleNext: step forward, clamped at the last index, and stop
auto-play. -/
def handleNext (len : Int) (nav : ReplayNav) : ReplayNav :=
  { currentIndex := min (len - 1) (nav.currentIndex + 1), playing := false }

/-- Replay.handleSeek: jump to a timeline index and stop auto-play. -/
def handleSeek (i : Int) (_nav : ReplayNav) : ReplayNav :=
  { currentIndex := i, playing := false }

/-- Replay auto-play effect: when not playing or already at the last
state, stop playing without moving; otherwise advance by one. -/
def autoPlayTick (len : Int) (nav : ReplayNav) : ReplayNav :=
  if !nav.playing || len - 1 ≤ nav.currentIndex then
    { nav with playing := false }
  else
    { nav with currentIndex := nav.currentIndex + 1 }

/-- The navigation operations of the replay page. -/
inductive NavOp where
  | prev
  | next
  | seek (i : Int)
  | tick
  | togglePlay

/-- Apply one navigation operation. -/
def applyNavOp (len : Int) (nav : ReplayNav) : NavOp → ReplayNav
  | NavOp.prev => handlePrev nav
  | NavOp.next => handleNext len nav
  | NavOp.seek i => handleSeek i nav
  | NavOp.tick => autoPlayTick len nav
  | NavOp.togglePlay => { nav with playing := !nav.playing }

/-- An operation the replay page can actually emit: the timeline renders
one seek button per replay state, so seek targets are valid indices. -/
def validOp (len : Int) : NavOp → Prop
  | NavOp.seek i => 0 ≤ i ∧ i < len
  | _ => True

/-- The navigation state after a sequence of operations, starting at
index 0 with auto-play off. -/
def navAfter (len : Int) (ops : List NavOp) : ReplayNav :=
  ops.foldl (applyNavOp len) { currentIndex := 0, playing := false }

/-- Each valid operation preserves the index bounds. -/
theorem applyNavOp_bounds (len : Int) (hlen : 1 ≤ len) (nav : ReplayNav)
    (op : NavOp) (hop : validOp len op)
    (h0 : 0 ≤ nav.currentIndex) (h1 : nav.currentIndex ≤ len - 1) :
    0 ≤ (applyNavOp len nav op).currentIndex
    ∧ (applyNavOp len nav op).currentIndex ≤ len - 1 := by
  cases op with
  | prev =>
    simp only [applyNavOp, handlePrev]
    constructor
    · exact le_max_left 0 (nav.currentIndex - 1)
    · simp only [max_le_iff]
      omega
  | next =>
    simp only [applyNavOp, handleNext]
    constructor
    · simp only [le_min_iff]
      omega
    · exact min_le_left (len - 1) (nav.currentIndex + 1)
  | seek i =>
    simp only [applyNavOp, handleSeek]
    obtain ⟨hi0, hi1⟩ := hop
    exact ⟨hi0, by omega⟩
  | tick =>
    simp only [applyNavOp, autoPlayTick]
    split
    · exact ⟨h0, h1⟩
    · rename_i hcond
      simp only [Bool.or_eq_true, Bool.not_eq_true', not_or, decide_eq_true_eq,
        not_le] at hcond
      dsimp only
      omega
  | togglePlay =>
    exact ⟨h0, h1⟩

end Replay

/-- Claim C10: starting from index 0, every sequence of replay navigation
operations the page can emit keeps the current index between 0 and the
last index, so indexing the non-empty state list at the current index
always yields a defined state; and the auto-play tick at the last index
stops playback instead of advancing. -/
theorem claimC10 : ∀ (len : Int), 1 ≤ len → ∀ (ops : List Replay.NavOp),
    (∀ op ∈ ops, Replay.validOp len op) →
    (0 ≤ (Replay.navAfter len ops).currentIndex
      ∧ (Replay.navAfter len ops).currentIndex ≤ len - 1)
    ∧ (∀ states : List GameState, (states.length : Int) = len →
      ∃ st, states.get? (Replay.navAfter len ops).currentIndex.toNat = some st)
    ∧ (∀ nav : Replay.ReplayNav, nav.currentIndex = len - 1 →
      (Replay.autoPlayTick len nav).playing = false
      ∧ (Replay.autoPlayTick len nav).currentIndex = nav.currentIndex) := by
  intro len hlen ops hops
  have hbounds : ∀ (l : List Replay.NavOp) (nav : Replay.ReplayNav),
      (∀ op ∈ l, Replay.validOp len op) →
      0 ≤ nav.currentIndex → nav.currentIndex ≤ len - 1 →
      0 ≤ (l.foldl (Replay.applyNavOp len) nav).currentIndex
      ∧ (l.foldl (Replay.applyNavOp len) nav).currentIndex ≤ len - 1 := by
    intro l
    induction l with
    | nil => intro nav _ h0 h1; exact ⟨h0, h1⟩
    | cons op l ih =>
      intro nav hvalid h0 h1
      have hop := hvalid op (List.mem_cons_self op l)
      have hrest : ∀ o ∈ l, Replay.validOp len o := fun o ho =>
        hvalid o (List.mem_cons_of_mem op ho)
      have hstep := Replay.applyNavOp_bounds len hlen nav op hop h0 h1
      exact ih (Replay.applyNavOp len nav op) hrest hstep.1 hstep.2
  have hmain : 0 ≤ (Replay.navAfter len ops).currentIndex
      ∧ (Replay.navAfter len ops).currentIndex ≤ len - 1 :=
    hbounds ops { currentIndex := 0, playing := false } hops
      (by dsimp only; omega) (by dsimp only; omega)
  refine ⟨hmain, ?_, ?_⟩
  · intro states hslen
    have hidx : (Replay.navAfter len ops).currentIndex.toNat < states.length := by
      have h0 := hmain.1
      have h1 := hmain.2
      omega
    exact ⟨states.get ⟨(Replay.navAfter len ops).currentIndex.toNat, hidx⟩,
      List.get?_eq_get hidx⟩
  · intro nav hnav
    have hle : len - 1 ≤ nav.currentIndex := by omega
    simp [Replay.autoPlayTick, hle]

/-- Witness for claim C10: one next click then a tick on a two-state
replay stays at the last index. -/
theorem claimC10_witness :
    0 ≤ (Replay.navAfter 2 [Replay.NavOp.next, Replay.NavOp.tick]).currentIndex
    ∧ (Replay.navAfter 2 [Replay.NavOp.next, Replay.NavOp.tick]).currentIndex
      ≤ 2 - 1 :=
  (claimC10 2 (by decide) [Replay.NavOp.next, Replay.NavOp.tick]
    (by intro op hop; cases hop with
      | head => exact trivial
      | tail _ h => cases h with
        | head => exact trivial
        | tail _ h2 => cases h2)).1

/-- Claim C9: togglePlayerSelection removes the seat when present and
appends it when absent, leaves membership of every other seat unchanged,
and applying it twice with the same seat restores the same set of seats. -/
theorem claimC9 : ∀ (sel : List Nat) (k j : Nat),
    (k ∈ sel → k ∉ GameStore.togglePlayerSelection sel k)
    ∧ (k ∉ sel → k ∈ GameStore.togglePlayerSelection sel k)
    ∧ (j ≠ k → (j ∈ GameStore.togglePlayerSelection sel k ↔ j ∈ sel))
    ∧ (j ∈ GameStore.togglePlayerSelection (GameStore.togglePlayerSelection sel k) k
        ↔ j ∈ sel) := by
  intro sel k j
  refine ⟨?_, ?_, ?_, ?_⟩
  · intro hk
    simp [GameStore.togglePlayerSelection, hk]
  · intro hk
    simp [GameStore.togglePlayerSelection, hk]
  · intro hjk
    by_cases hk : k ∈ sel <;>
      simp [GameStore.togglePlayerSelection, hk, hjk]
  · by_cases hk : k ∈ sel
    · have h1 : GameStore.togglePlayerSelection sel k = sel.filter (fun s => s != k) := by
        simp [GameStore.togglePlayerSelection, hk]
      have hk2 : k ∉ sel.filter (fun s => s != k) := by simp
      rw [h1]
      by_cases hjk : j = k
      · subst hjk
        simp [GameStore.togglePlayerSelection, hk2, hk]
      · simp [GameStore.togglePlayerSelection, hk2, hjk]
    · have h1 : GameStore.togglePlayerSelection sel k = sel ++ [k] := by
        simp [GameStore.togglePlayerSelection, hk]
      have hk2 : k ∈ sel ++ [k] := by simp
      rw [h1]
      by_cases hjk : j = k
      · subst hjk
        simp [GameStore.togglePlayerSelection, hk2, hk]
      · simp [GameStore.togglePlayerSelection, hk2, hjk]

/-- Witness for claim C9 at a concrete selection and seats. -/
theorem claimC9_witness :
    (2 ∈ [0, 2, 4] → 2 ∉ GameStore.togglePlayerSelection [0, 2, 4] 2)
    ∧ (2 ∈ [0, 2, 4]) ∧ (2 ∉ GameStore.togglePlayerSelection [0, 2, 4] 2) := by
  refine ⟨(claimC9 [0, 2, 4] 2 0).1, by decide, ?_⟩
  exact (claimC9 [0, 2, 4] 2 0).1 (by decide)
